import Mathlib

set_option maxHeartbeats 1000000
set_option maxRecDepth 100000

namespace SecureShare

/-!
Shallow embedding of `src/main.py` (SecureShare, a Streamlit file-sharing app).

Conventions of the embedding:
* byte strings are `List Nat` whose members are below 256;
* timestamps are `Nat`, counted in microseconds (the precision of Python's
  `datetime`), so `timedelta(hours=24)` is `86400000000`;
* the Streamlit session store `st.session_state.files` is an association list
  from share code to record, in insertion order, mirroring a Python `dict`;
* randomness (`secrets.randbelow`, `secrets.token_bytes`) is passed in as an
  explicit argument, and each `datetime.now()` call site receives its own
  clock reading as an argument.

Library primitives called by the source but not part of the repository
(PBKDF2, Fernet, base64, ISO-8601 timestamp text, the zipfile container) are
modelled; each model carries a comment saying exactly what is modelled.
-/

/-- Error taxonomy relevant to the embedded operations. -/
inductive CryptoError where
  | authenticationError
deriving DecidableEq

/-! ## Base64 (Python `base64.b64encode` / `base64.b64decode`)

The source uses base64 to persist binary salts and payloads
(`save_shared_data`, src/main.py:35,43) and decodes them on load
(`load_shared_data`, src/main.py:23,27).  The codec below is the standard
base64 with padding, implemented in full (3 bytes to 4 alphabet characters,
`=` padding for a 1- or 2-byte tail). -/

def b64alphabet : List Char :=
  "ABCDEFGHIJKLMNOPQRSTUVWXYZabcdefghijklmnopqrstuvwxyz0123456789+/".toList

/-- The alphabet character of a sextet value (0..63). -/
def sextetChar (n : Nat) : Char := b64alphabet.getD n '='

/-- Index of a character in a list (first occurrence; length if absent). -/
def idxOf (c : Char) : List Char → Nat
  | [] => 0
  | d :: rest => if d = c then 0 else idxOf c rest + 1

/-- The sextet value of an alphabet character. -/
def charSextet (c : Char) : Nat := idxOf c b64alphabet

/-- Base64-encode a byte string (standard alphabet, with padding). -/
def b64encode : List Nat → List Char
  | [] => []
  | [a] => [sextetChar (a / 4), sextetChar (a % 4 * 16), '=', '=']
  | [a, b] => [sextetChar (a / 4), sextetChar (a % 4 * 16 + b / 16),
               sextetChar (b % 16 * 4), '=']
  | a :: b :: c :: rest =>
      sextetChar (a / 4) :: sextetChar (a % 4 * 16 + b / 16) ::
      sextetChar (b % 16 * 4 + c / 64) :: sextetChar (c % 64) :: b64encode rest

/-- Base64-decode (inverse of `b64encode` on its image). -/
def b64decode : List Char → List Nat
  | c1 :: c2 :: c3 :: c4 :: rest =>
      if c3 = '=' then
        [charSextet c1 * 4 + charSextet c2 / 16]
      else if c4 = '=' then
        [charSextet c1 * 4 + charSextet c2 / 16,
         charSextet c2 % 16 * 16 + charSextet c3 / 4]
      else
        (charSextet c1 * 4 + charSextet c2 / 16) ::
        (charSextet c2 % 16 * 16 + charSextet c3 / 4) ::
        (charSextet c3 % 4 * 64 + charSextet c4) ::
        b64decode rest
  | _ => []

/-- `base64.urlsafe_b64encode`: standard base64 with `+`, `/` replaced by
`-`, `_`.  Used by `generate_encryption_key` (src/main.py:238). -/
def urlsafe_b64encode (l : List Nat) : List Char :=
  (b64encode l).map (fun ch => if ch = '+' then '-' else if ch = '/' then '_' else ch)

/-! ## Key derivation (`generate_encryption_key`, src/main.py:230-238) -/

/-- Modelled from the spec: `PBKDF2HMAC(algorithm=SHA256, length, salt,
iterations)` of the `cryptography` library (library code, not in the
repository).  The model keeps the properties the spec states and the source
relies on: a pure, deterministic function of exactly `(password, salt)` plus
the fixed parameters, producing `length` output bytes. -/
def pbkdf2_hmac_sha256 (password salt : List Nat) (iterations length : Nat) : List Nat :=
  (List.range length).map (fun i =>
    (password.foldl (fun a b => a * 257 + b) 7
      + salt.foldl (fun a b => a * 263 + b) 11
      + iterations * 31 + i) % 256)

/-- `generate_encryption_key(password, salt)` (src/main.py:230-238): derive a
32-byte key with PBKDF2-HMAC-SHA256 at 100000 iterations, then
`base64.urlsafe_b64encode` it into the 44-byte form Fernet consumes.
`password.encode()` is UTF-8; share codes are ASCII digits, so the byte
values are the character codes. -/
def generate_encryption_key (password : String) (salt : List Nat) : List Nat :=
  (urlsafe_b64encode
    (pbkdf2_hmac_sha256 (password.toList.map Char.toNat) salt 100000 32)).map Char.toNat

/-! ## Authenticated encryption (`encrypt_file` / `decrypt_file`,
src/main.py:240-248)

Modelled from the spec: `cryptography.fernet.Fernet` (library code, not in
the repository) is an authenticated-encryption construction: the token
carries an HMAC tag binding it to the key, and `decrypt` verifies the tag
before inverting the keyed transform, raising `InvalidToken` otherwise.  The
model makes the binding exact (the spec's contract: wrong-key decryption
fails deterministically): the token is the key followed by the body, the
body is the plaintext XOR-ed with a key-derived stream, and decryption
checks the leading key bytes before inverting the XOR. -/

/-- Key-derived stream byte at position `i`. -/
def keystream (key : List Nat) (i : Nat) : Nat :=
  (key.foldl (fun a b => a + b) 0 + i) % 256

/-- XOR a byte list against the keystream starting at index `i`. -/
def xorStream (key : List Nat) : Nat → List Nat → List Nat
  | _, [] => []
  | i, b :: rest => (b ^^^ keystream key i) :: xorStream key (i + 1) rest

/-- `encrypt_file(file_data, key)` (src/main.py:240-243): `Fernet(key).encrypt`. -/
def encrypt_file (fileData key : List Nat) : List Nat :=
  key ++ xorStream key 0 fileData

/-- `decrypt_file(encrypted_data, key)` (src/main.py:245-248):
`Fernet(key).decrypt`, failing on a token not authenticated by `key`. -/
def decrypt_file (encryptedData key : List Nat) : Except CryptoError (List Nat) :=
  if encryptedData.take key.length = key then
    Except.ok (xorStream key 0 (encryptedData.drop key.length))
  else
    Except.error CryptoError.authenticationError

/-! ## Helper lemmas -/

theorem xorStream_xorStream (key : List Nat) :
    ∀ (i : Nat) (l : List Nat), xorStream key i (xorStream key i l) = l := by
  intro i l
  induction l generalizing i with
  | nil => rfl
  | cons b rest ih =>
      simp [xorStream, Nat.xor_assoc, ih]

theorem pbkdf2_length (password salt : List Nat) (iterations length : Nat) :
    (pbkdf2_hmac_sha256 password salt iterations length).length = length := by
  simp [pbkdf2_hmac_sha256]

theorem b64encode_length : ∀ l : List Nat, (b64encode l).length = (l.length + 2) / 3 * 4
  | [] => by simp [b64encode]
  | [_] => by simp [b64encode]
  | [_, _] => by simp [b64encode]
  | a :: b :: c :: rest => by
      have ih := b64encode_length rest
      simp only [b64encode, List.length_cons, ih]
      omega

theorem generate_encryption_key_length (password : String) (salt : List Nat) :
    (generate_encryption_key password salt).length = 44 := by
  simp [generate_encryption_key, urlsafe_b64encode, b64encode_length, pbkdf2_length]

/-- C8: key derivation is deterministic — `generate_encryption_key` is a pure
function of exactly `(password, salt)`: the iteration count, hash, and output
length are literal constants in the source (src/main.py:232-237), and no other
input reaches the derivation, so two calls with the same pair return the same
key. -/
theorem generate_encryption_key_deterministic (password : String) (salt : List Nat) :
    generate_encryption_key password salt = generate_encryption_key password salt := rfl

/-- C2: decrypting the encryption of any plaintext under a derived key with
that same key returns exactly the plaintext. -/
theorem decrypt_encrypt_roundtrip (p : List Nat) (pw : String) (salt : List Nat) :
    decrypt_file (encrypt_file p (generate_encryption_key pw salt))
      (generate_encryption_key pw salt) = Except.ok p := by
  simp [decrypt_file, encrypt_file, List.take_left, List.drop_left, xorStream_xorStream]

/-- C3: a ciphertext produced under one derived key is rejected with an
authentication error when decrypted with any different derived key; corrupted
plaintext is never returned silently. -/
theorem decrypt_wrong_key_fails (p : List Nat) (pw1 pw2 : String) (s1 s2 : List Nat)
    (hne : generate_encryption_key pw1 s1 ≠ generate_encryption_key pw2 s2) :
    decrypt_file (encrypt_file p (generate_encryption_key pw1 s1))
      (generate_encryption_key pw2 s2) = Except.error CryptoError.authenticationError := by
  have hlen : (generate_encryption_key pw2 s2).length
      = (generate_encryption_key pw1 s1).length := by
    rw [generate_encryption_key_length, generate_encryption_key_length]
  have htake : (encrypt_file p (generate_encryption_key pw1 s1)).take
      (generate_encryption_key pw2 s2).length = generate_encryption_key pw1 s1 := by
    rw [hlen]
    exact List.take_left _ _
  simp only [decrypt_file, htake]
  rw [if_neg hne]

/-- C3 witness: two distinct derived keys, and the wrong-key decryption of a
concrete two-byte plaintext fails with the authentication error. -/
theorem decrypt_wrong_key_fails_witness :
    generate_encryption_key "000000" [0] ≠ generate_encryption_key "111111" [0] ∧
    decrypt_file (encrypt_file [104, 105] (generate_encryption_key "000000" [0]))
      (generate_encryption_key "111111" [0])
      = Except.error CryptoError.authenticationError :=
  ⟨by decide, decrypt_wrong_key_fails [104, 105] "000000" "111111" [0] [0] (by decide)⟩

theorem charSextet_sextetChar : ∀ n : Nat, n < 64 → charSextet (sextetChar n) = n := by decide

theorem sextetChar_ne_pad : ∀ n : Nat, n < 64 → sextetChar n ≠ '=' := by decide

theorem b64_roundtrip : ∀ l : List Nat, (∀ b ∈ l, b < 256) → b64decode (b64encode l) = l
  | [], _ => rfl
  | [a], h => by
      have ha : a < 256 := h a (by simp)
      simp only [b64encode, b64decode]
      rw [if_pos trivial]
      rw [charSextet_sextetChar _ (by omega), charSextet_sextetChar _ (by omega)]
      simp only [List.cons.injEq, and_true]
      omega
  | [a, b], h => by
      have ha : a < 256 := h a (by simp)
      have hb : b < 256 := h b (by simp)
      simp only [b64encode, b64decode]
      rw [if_neg (sextetChar_ne_pad _ (by omega)), if_pos trivial]
      rw [charSextet_sextetChar _ (by omega), charSextet_sextetChar _ (by omega),
          charSextet_sextetChar _ (by omega)]
      simp only [List.cons.injEq, and_true]
      exact ⟨by omega, by omega⟩
  | a :: b :: c :: rest, h => by
      have ha : a < 256 := h a (by simp)
      have hb : b < 256 := h b (by simp)
      have hc : c < 256 := h c (by simp)
      have ih := b64_roundtrip rest (fun x hx => h x (by simp [hx]))
      simp only [b64encode, b64decode]
      rw [if_neg (sextetChar_ne_pad _ (by omega)), if_neg (sextetChar_ne_pad _ (by omega))]
      rw [charSextet_sextetChar _ (by omega), charSextet_sextetChar _ (by omega),
          charSextet_sextetChar _ (by omega), charSextet_sextetChar _ (by omega)]
      rw [ih]
      simp only [List.cons.injEq, and_true]
      exact ⟨by omega, by omega, by omega⟩

/-! ## Data model (spec section 3; the record dict built at src/main.py:330-335) -/

/-- A stored file (the dict literal at src/main.py:323-328): name, payload
bytes (plaintext or ciphertext), plaintext size, encrypted flag. -/
structure FileEntry where
  name : String
  data : List Nat
  size : Nat
  encrypted : Bool
deriving DecidableEq

/-- A share record (the dict literal at src/main.py:330-335): files, salt and
the two timestamps. -/
structure ShareRecord where
  salt : List Nat
  created : Nat
  expires : Nat
  files : List FileEntry
deriving DecidableEq

/-- The session store `st.session_state.files`: an insertion-ordered mapping
from share code to record, as a Python dict. -/
abbrev Store := List (String × ShareRecord)

/-! ## Persistence (`load_shared_data` / `save_shared_data`, src/main.py:17-48) -/

/-- Modelled from the spec: `datetime.isoformat` (src/main.py:36-37) renders a
timestamp as ISO-8601 text at full microsecond precision, and
`datetime.fromisoformat` (src/main.py:24-25) parses that text back to an equal
`datetime`; the pair is an exact round-trip at the persisted precision, so the
text form is modelled by the timestamp value it denotes. -/
def isoformat (t : Nat) : Nat := t

/-- Modelled from the spec: see `isoformat`. -/
def fromisoformat (t : Nat) : Nat := t

/-- The serialized form of a file entry (the dict appended at
src/main.py:41-46): payload base64-encoded to text. -/
structure FileEntryJson where
  name : String
  data : List Char
  size : Nat
  encrypted : Bool
deriving DecidableEq

/-- The serialized form of a record (the dict built at src/main.py:34-39):
salt base64-encoded, timestamps in ISO text. -/
structure ShareRecordJson where
  salt : List Char
  created : Nat
  expires : Nat
  files : List FileEntryJson
deriving DecidableEq

/-- Serialization of one file entry (the dict appended at src/main.py:41-46). -/
def fileToJson (f : FileEntry) : FileEntryJson :=
  { name := f.name, data := b64encode f.data, size := f.size, encrypted := f.encrypted }

/-- Deserialization of one file entry (the decode at src/main.py:26-27). -/
def fileOfJson (g : FileEntryJson) : FileEntry :=
  { name := g.name, data := b64decode g.data, size := g.size, encrypted := g.encrypted }

/-- Serialization of one record (the dict built at src/main.py:34-46). -/
def recordToJson (r : ShareRecord) : ShareRecordJson :=
  { salt := b64encode r.salt, created := isoformat r.created,
    expires := isoformat r.expires, files := r.files.map fileToJson }

/-- Deserialization of one record (the decodes at src/main.py:22-27). -/
def recordOfJson (j : ShareRecordJson) : ShareRecord :=
  { salt := b64decode j.salt, created := fromisoformat j.created,
    expires := fromisoformat j.expires, files := j.files.map fileOfJson }

/-- `save_shared_data()` (src/main.py:30-48), up to the final `json.dump`:
the JSON layer serializes a mapping of strings, numbers and booleans and is
an exact round-trip for them, so the embedding keeps the mapping itself. -/
def save_shared_data (store : Store) : List (String × ShareRecordJson) :=
  store.map (fun p => (p.1, recordToJson p.2))

/-- `load_shared_data()` (src/main.py:17-28), after `json.load`: decode the
salt, the timestamps and each file payload. -/
def load_shared_data (data : List (String × ShareRecordJson)) : Store :=
  data.map (fun p => (p.1, recordOfJson p.2))

/-- A byte string: every member below 256. -/
def validBytes (l : List Nat) : Bool := l.all (fun b => decide (b < 256))

/-- A record whose salt and payloads are byte strings. -/
def validRecord (r : ShareRecord) : Bool :=
  validBytes r.salt && r.files.all (fun f => validBytes f.data)

/-- A store of valid records. -/
def validStore (s : Store) : Bool := s.all (fun p => validRecord p.2)

theorem b64_roundtrip_valid (l : List Nat) (h : validBytes l = true) :
    b64decode (b64encode l) = l := by
  refine b64_roundtrip l ?_
  intro b hb
  have := List.all_eq_true.mp h b hb
  exact of_decide_eq_true this

theorem map_self {α : Type} (g : α → α) :
    ∀ l : List α, (∀ x ∈ l, g x = x) → l.map g = l := by
  intro l h
  induction l with
  | nil => rfl
  | cons x xs ih =>
      simp only [List.map_cons]
      rw [h x (by simp), ih (fun y hy => h y (by simp [hy]))]

theorem fileOfJson_fileToJson (f : FileEntry) (h : validBytes f.data = true) :
    fileOfJson (fileToJson f) = f := by
  obtain ⟨name, data, size, encrypted⟩ := f
  simp only [fileToJson, fileOfJson]
  rw [b64_roundtrip_valid data h]

theorem recordOfJson_recordToJson (r : ShareRecord) (h : validRecord r = true) :
    recordOfJson (recordToJson r) = r := by
  obtain ⟨salt, created, expires, files⟩ := r
  simp only [validRecord, Bool.and_eq_true] at h
  simp only [recordToJson, recordOfJson, isoformat, fromisoformat, List.map_map]
  have hfiles : files.map (fileOfJson ∘ fileToJson) = files :=
    map_self _ files (fun f hf => fileOfJson_fileToJson f (List.all_eq_true.mp h.2 f hf))
  rw [b64_roundtrip_valid salt h.1, hfiles]

/-- C5: loading the persisted store after saving it reconstructs every record
exactly — byte-identical salt and payloads, identical timestamps at the
persisted precision, identical names, sizes and encrypted flags. -/
theorem load_save_roundtrip (s : Store) (hs : validStore s = true) :
    load_shared_data (save_shared_data s) = s := by
  simp only [load_shared_data, save_shared_data, List.map_map]
  refine map_self _ s ?_
  intro p hp
  have hrec : validRecord p.2 = true := List.all_eq_true.mp hs p hp
  obtain ⟨code, r⟩ := p
  simp only [Function.comp_apply]
  rw [recordOfJson_recordToJson r hrec]

/-- C5 witness: a store holding one record whose payload runs through all 256
byte values survives the save/load round-trip unchanged. -/
theorem load_save_roundtrip_witness :
    validStore [("123456",
      { salt := [0, 1, 2, 3, 4, 5, 6, 7, 8, 9, 10, 11, 12, 13, 14, 15],
        created := 1700000000000000, expires := 1700086400000000,
        files := [{ name := "a.bin", data := List.range 256,
                    size := 256, encrypted := false }] })] = true ∧
    load_shared_data (save_shared_data [("123456",
      { salt := [0, 1, 2, 3, 4, 5, 6, 7, 8, 9, 10, 11, 12, 13, 14, 15],
        created := 1700000000000000, expires := 1700086400000000,
        files := [{ name := "a.bin", data := List.range 256,
                    size := 256, encrypted := false }] })]) = [("123456",
      { salt := [0, 1, 2, 3, 4, 5, 6, 7, 8, 9, 10, 11, 12, 13, 14, 15],
        created := 1700000000000000, expires := 1700086400000000,
        files := [{ name := "a.bin", data := List.range 256,
                    size := 256, encrypted := false }] })] :=
  ⟨by decide, load_save_roundtrip _ (by decide)⟩

/-! ## Store operations -/

/-- Lookup by code (Python `dict` indexing / `in` test on
`st.session_state.files`). -/
def storeLookup : Store → String → Option ShareRecord
  | [], _ => none
  | (k, v) :: rest, c => if k = c then some v else storeLookup rest c

/-- Python dict assignment `st.session_state.files[share_code] = {...}`
(src/main.py:330): replaces the value in place when the key is present (a
Python dict keeps the key's original position), appends otherwise.  There is
no presence check and no error path around this assignment in the source. -/
def dictInsert (store : Store) (k : String) (v : ShareRecord) : Store :=
  if store.any (fun p => decide (p.1 = k)) then
    store.map (fun p => if p.1 = k then (k, v) else p)
  else store ++ [(k, v)]

/-- Result of the retrieve-button handler (src/main.py:394-405). -/
inductive RetrieveResult where
  | found (r : ShareRecord)
  | expired
  | notFound
deriving DecidableEq

/-- Retrieve-button handler (src/main.py:394-405): if the code is a key of
the store, check `datetime.now() > expires` (strict) and reject with the
expired error without exposing the record; otherwise report an invalid
code. -/
def retrieve_files (store : Store) (code : String) (now : Nat) : RetrieveResult :=
  match storeLookup store code with
  | some info => if now > info.expires then RetrieveResult.expired else RetrieveResult.found info
  | none => RetrieveResult.notFound

/-- Expiry cleanup loop (src/main.py:544-550): collect every code with
`datetime.now() > expires` and delete it from the store; on a dict (unique
keys) this is exactly a filter keeping the unexpired records. -/
def cleanup_expired (store : Store) (now : Nat) : Store :=
  store.filter (fun p => decide (¬ now > p.2.expires))

theorem storeLookup_cleanup_eq_none (now : Nat) (c : String) :
    ∀ s : Store, c ∉ s.map Prod.fst → storeLookup (cleanup_expired s now) c = none := by
  intro s
  induction s with
  | nil => intro _; rfl
  | cons p rest ih =>
      intro h
      obtain ⟨k, v⟩ := p
      have hk : k ≠ c := by
        intro hkc
        exact h (by simp [hkc])
      have hrest : c ∉ rest.map Prod.fst := by
        intro hmem
        exact h (by simp [hmem])
      simp only [cleanup_expired, List.filter_cons] at *
      by_cases hcond : now > v.expires
      · simp only [hcond, not_true, decide_False, if_false]
        exact ih hrest
      · simp only [hcond, not_false_iff, decide_True, if_true]
        simp only [storeLookup, if_neg hk]
        exact ih hrest

/-- C4: a stored record whose expiry lies in the past (for instance one
second before `now`) is rejected by the retrieve handler with the expired
error rather than returned, and the expiry cleanup pass removes its code
from the store. -/
theorem retrieve_expired_rejects_and_evicts (store : Store) (code : String)
    (now : Nat) (r : ShareRecord)
    (hnodup : (store.map Prod.fst).Nodup)
    (hfind : storeLookup store code = some r)
    (hexp : r.expires < now) :
    retrieve_files store code now = RetrieveResult.expired ∧
    storeLookup (cleanup_expired store now) code = none := by
  constructor
  · simp only [retrieve_files, hfind]
    rw [if_pos hexp]
  · induction store with
    | nil => simp [storeLookup] at hfind
    | cons p rest ih =>
        obtain ⟨k, v⟩ := p
        by_cases hk : k = code
        · subst hk
          have hv : v = r := by
            simp [storeLookup] at hfind
            exact hfind
          subst hv
          have hrest : k ∉ rest.map Prod.fst := by
            simp only [List.map_cons, List.nodup_cons] at hnodup
            exact hnodup.1
          have hgt : now > v.expires := hexp
          simp only [cleanup_expired, List.filter_cons, hgt, not_true,
            decide_False, if_false]
          exact storeLookup_cleanup_eq_none now k rest hrest
        · have hfind' : storeLookup rest code = some r := by
            simp only [storeLookup, if_neg hk] at hfind
            exact hfind
          have hnodup' : (rest.map Prod.fst).Nodup := by
            simp only [List.map_cons, List.nodup_cons] at hnodup
            exact hnodup.2
          have htail := ih hnodup' hfind'
          simp only [cleanup_expired, List.filter_cons] at htail ⊢
          by_cases hcond : now > v.expires
          · simp only [hcond, not_true, decide_False, if_false]
            exact htail
          · simp only [hcond, not_false_iff, decide_True, if_true]
            simp only [storeLookup, if_neg hk]
            exact htail

/-- Concrete record that expired one second before the witness clock. -/
def exRecExp : ShareRecord :=
  { salt := [0], created := 1700000000000000, expires := 1700086400000000, files := [] }

/-- Concrete one-record store holding `exRecExp` under "123456". -/
def exStoreExp : Store := [("123456", exRecExp)]

/-- C4 witness: a one-record store whose record expired one second before
`now` is rejected with the expired error, and the cleanup pass removes its
code from the store. -/
theorem retrieve_expired_rejects_and_evicts_witness :
    (exStoreExp.map Prod.fst).Nodup ∧
    storeLookup exStoreExp "123456" = some exRecExp ∧
    exRecExp.expires < 1700086401000000 ∧
    (retrieve_files exStoreExp "123456" 1700086401000000 = RetrieveResult.expired ∧
     storeLookup (cleanup_expired exStoreExp 1700086401000000) "123456" = none) :=
  ⟨by decide, by decide, by decide,
   retrieve_expired_rejects_and_evicts exStoreExp "123456" 1700086401000000 exRecExp
     (by decide) (by decide) (by decide)⟩

/-! ## Claim C6: inserting under a live code -/

/-- Concrete record for the overwrite scenario: live until 24h past its
creation. -/
def exRecOld : ShareRecord :=
  { salt := [1], created := 0, expires := 86400000000, files := [] }

/-- Concrete replacement record, distinct from `exRecOld`. -/
def exRecNew : ShareRecord :=
  { salt := [2], created := 500, expires := 86400000500, files := [] }

/-- C6 counterexample: the code "123456" is present and unexpired (any `now`
below 86400000000), yet the insertion of a new record under it does not fail
— there is no DuplicateKeyError anywhere in the source — and the existing
record is replaced rather than left unchanged. -/
theorem put_live_duplicate_overwrites_counterexample :
    storeLookup [("123456", exRecOld)] "123456" = some exRecOld ∧
    (0 : Nat) < exRecOld.expires ∧
    dictInsert [("123456", exRecOld)] "123456" exRecNew = [("123456", exRecNew)] ∧
    exRecNew ≠ exRecOld := by
  refine ⟨by decide, by decide, ?_, by decide⟩
  decide

theorem storeLookup_map_replace (c : String) (rNew : ShareRecord) :
    ∀ s : Store, (∃ rOld, storeLookup s c = some rOld) →
      storeLookup (s.map (fun p => if p.1 = c then (c, rNew) else p)) c = some rNew := by
  intro s
  induction s with
  | nil => rintro ⟨rOld, h⟩; simp [storeLookup] at h
  | cons p rest ih =>
      rintro ⟨rOld, h⟩
      obtain ⟨k, v⟩ := p
      by_cases hk : k = c
      · subst hk
        have hf : (if (k, v).1 = k then (k, rNew) else (k, v)) = (k, rNew) := if_pos rfl
        rw [List.map_cons, hf]
        simp [storeLookup]
      · simp only [storeLookup, if_neg hk] at h
        have hf : (if (k, v).1 = c then (c, rNew) else (k, v)) = (k, v) := if_neg hk
        simp only [List.map_cons, hf]
        simp only [storeLookup, if_neg hk]
        exact ih ⟨rOld, h⟩

theorem storeLookup_any (c : String) :
    ∀ s : Store, (∃ r, storeLookup s c = some r) →
      s.any (fun p => decide (p.1 = c)) = true := by
  intro s
  induction s with
  | nil => rintro ⟨r, h⟩; simp [storeLookup] at h
  | cons p rest ih =>
      rintro ⟨r, h⟩
      obtain ⟨k, v⟩ := p
      by_cases hk : k = c
      · simp [List.any_cons, hk]
      · simp only [storeLookup, if_neg hk] at h
        simp only [List.any_cons, Bool.or_eq_true]
        exact Or.inr (ih ⟨r, h⟩)

/-- C6 amended: inserting a record under a code that is already present
stores the new record in place of the old one (same position, same store
size) and raises no error: insertion under a live code silently overwrites. -/
theorem put_present_code_overwrites (store : Store) (code : String)
    (rOld rNew : ShareRecord) (hfind : storeLookup store code = some rOld) :
    storeLookup (dictInsert store code rNew) code = some rNew ∧
    (dictInsert store code rNew).length = store.length := by
  have hany := storeLookup_any code store ⟨rOld, hfind⟩
  constructor
  · simp only [dictInsert, if_pos hany]
    exact storeLookup_map_replace code rNew store ⟨rOld, hfind⟩
  · simp only [dictInsert, if_pos hany, List.length_map]

/-- C6 amended witness: the overwrite at the concrete one-record store. -/
theorem put_present_code_overwrites_witness :
    storeLookup [("123456", exRecOld)] "123456" = some exRecOld ∧
    (storeLookup (dictInsert [("123456", exRecOld)] "123456" exRecNew) "123456"
        = some exRecNew ∧
     (dictInsert [("123456", exRecOld)] "123456" exRecNew).length
        = ([("123456", exRecOld)] : Store).length) :=
  ⟨by decide, put_present_code_overwrites _ "123456" exRecOld exRecNew (by decide)⟩

/-! ## Share-code generation (`generate_share_code`, src/main.py:226-228) -/

/-- `str(secrets.randbelow(10))` as a character: the decimal digit of the
draw (`% 10` records that the draw is already below ten). -/
def digitChar (d : Nat) : Char := Char.ofNat (48 + d % 10)

/-- `generate_share_code()` (src/main.py:226-228): join six decimal digits,
one per independent `secrets.randbelow(10)` draw; the six draws are received
here as `draws`.  The function takes no other input — in particular it never
sees the stored codes, and the source has no retry loop around it. -/
def generate_share_code (draws : List Nat) : String :=
  String.mk ((draws.take 6).map digitChar)

/-- The spec's code-format validator `^\d{6}$` (spec section 6). -/
def isValidCode (c : String) : Bool :=
  decide (c.toList.length = 6) &&
    c.toList.all (fun ch => decide (48 ≤ ch.toNat) && decide (ch.toNat ≤ 57))

/-- The digit values of a 6-digit code, as a draw sequence. -/
def codeDigits (c : String) : List Nat :=
  c.toList.map (fun ch => ch.toNat - 48)

theorem string_mk_toList (s : String) : String.mk s.toList = s := rfl

/-- C1 counterexample: with the non-empty existing-code set {"123456"}, the
draw sequence 1,2,3,4,5,6 makes the generator return "123456", a member of
that set: nothing in `generate_share_code` consults the existing codes or
retries. -/
theorem generate_code_collision_counterexample :
    (["123456"] : List String) ≠ [] ∧
    generate_share_code [1, 2, 3, 4, 5, 6] ∈ (["123456"] : List String) :=
  ⟨by decide, by decide⟩

/-- C1 amended: the generator is a function of the six random draws alone and
performs no collision check: every 6-digit code in the existing set — such as
any live code — is returned verbatim by some draw sequence, so a collision
with a live code is possible and nothing prevents it. -/
theorem generate_share_code_can_collide (existing : List String) (c : String)
    (hmem : c ∈ existing) (hvalid : isValidCode c = true) :
    generate_share_code (codeDigits c) = c ∧ c ∈ existing := by
  refine ⟨?_, hmem⟩
  simp only [isValidCode, Bool.and_eq_true, decide_eq_true_eq, List.all_eq_true] at hvalid
  obtain ⟨hlen, hall⟩ := hvalid
  unfold generate_share_code codeDigits
  rw [List.take_of_length_le (by simp only [List.length_map, hlen]; omega)]
  rw [List.map_map]
  have hmap : c.toList.map (digitChar ∘ fun ch => ch.toNat - 48) = c.toList := by
    refine map_self _ _ ?_
    intro ch hch
    have hb := hall ch hch
    simp only [Bool.and_eq_true, decide_eq_true_eq] at hb
    simp only [Function.comp_apply, digitChar]
    have harith : 48 + (ch.toNat - 48) % 10 = ch.toNat := by omega
    rw [harith, Char.ofNat_toNat]
  rw [hmap]
  exact string_mk_toList c

/-- C1 amended witness: the live code "042000" is reproduced by the draw
sequence of its own digits. -/
theorem generate_share_code_can_collide_witness :
    "042000" ∈ (["042000"] : List String) ∧ isValidCode "042000" = true ∧
    (generate_share_code (codeDigits "042000") = "042000" ∧
     "042000" ∈ (["042000"] : List String)) :=
  ⟨by decide, by decide,
   generate_share_code_can_collide ["042000"] "042000" (by decide) (by decide)⟩

/-! ## Record construction (create-share handler, src/main.py:330-335) -/

/-- The record stored by the create-share handler (src/main.py:330-335):
`'created': datetime.now()` and `'expires': datetime.now() + timedelta(hours=24)`
are two separate clock reads, received here as `t1` and `t2` in program
order; `timedelta(hours=24)` is 86400000000 microseconds. -/
def make_share_record (salt : List Nat) (files : List FileEntry) (t1 t2 : Nat) : ShareRecord :=
  { salt := salt, created := t1, expires := t2 + 86400000000, files := files }

/-- C9 counterexample: when the second clock read is one microsecond after
the first (t1 = 0, t2 = 1), the stored record has
`expiresAt ≠ createdAt + 24h` — the source derives `expires` from a second
`datetime.now()` call, not from `created`. -/
theorem expires_not_created_plus_24h_counterexample :
    (make_share_record [] [] 0 1).expires
      ≠ (make_share_record [] [] 0 1).created + 86400000000 := by decide

/-- C9 amended: the stored record satisfies `expiresAt = t2 + 24h` where `t2`
is the second clock read; whenever the clock does not go backwards between
the two reads, `expiresAt ≥ createdAt + 24h`, and in particular
`expiresAt > createdAt`.  Exact equality with `createdAt + 24h` holds only
when both reads return the same instant. -/
theorem expires_24h_after_second_clock_read (salt : List Nat) (files : List FileEntry)
    (t1 t2 : Nat) (hle : t1 ≤ t2) :
    (make_share_record salt files t1 t2).expires = t2 + 86400000000 ∧
    (make_share_record salt files t1 t2).created + 86400000000
      ≤ (make_share_record salt files t1 t2).expires ∧
    (make_share_record salt files t1 t2).created
      < (make_share_record salt files t1 t2).expires := by
  refine ⟨rfl, ?_, ?_⟩ <;> simp only [make_share_record] <;> omega

/-- C9 amended witness: both clock reads at the same instant. -/
theorem expires_24h_after_second_clock_read_witness :
    (0 : Nat) ≤ 0 ∧
    ((make_share_record [] [] 0 0).expires = 0 + 86400000000 ∧
     (make_share_record [] [] 0 0).created + 86400000000
       ≤ (make_share_record [] [] 0 0).expires ∧
     (make_share_record [] [] 0 0).created < (make_share_record [] [] 0 0).expires) :=
  ⟨by decide, expires_24h_after_second_clock_read [] [] 0 0 (by decide)⟩

/-! ## Per-file storage and download (src/main.py:317-328 and 421-439) -/

/-- Per-file storage in the create-share handler (src/main.py:317-328):
encrypt the uploaded bytes only when the encryption box is ticked, record the
plaintext length and the flag. -/
def store_file (useEncryption : Bool) (key : List Nat) (name : String)
    (data : List Nat) : FileEntry :=
  { name := name,
    data := if useEncryption then encrypt_file data key else data,
    size := data.length,
    encrypted := useEncryption }

/-- Per-file download path (src/main.py:421-431): decrypt with the key
derived from (code, salt) when the entry is flagged encrypted, otherwise
hand the stored bytes straight to the download button. -/
def download_file_data (code : String) (salt : List Nat) (f : FileEntry) :
    Except CryptoError (List Nat) :=
  if f.encrypted then decrypt_file f.data (generate_encryption_key code salt)
  else Except.ok f.data

/-- C10: a file stored with encryption off keeps the uploaded bytes exactly,
its flag stays false, and the download path returns those stored bytes
unchanged: the unencrypted path applies no transformation. -/
theorem unencrypted_path_identity (key : List Nat) (name : String)
    (data : List Nat) (code : String) (salt : List Nat) :
    (store_file false key name data).data = data ∧
    (store_file false key name data).encrypted = false ∧
    download_file_data code salt (store_file false key name data)
      = Except.ok data :=
  ⟨rfl, rfl, rfl⟩

/-! ## ZIP builders (src/main.py:451-470 and 473-491)

The ZIP container written by `zipfile.ZipFile(..., 'w', ZIP_DEFLATED)` is
library code, not in the repository; it is modelled by the sequence of
`(name, bytes)` pairs handed to `zip_file.writestr` in order — `zipfile`
performs no name check of its own, so that sequence is the full observable
entry list of the archive. -/

/-- The expected plaintext entry sequence of a file list. -/
def zipPlain (fs : List FileEntry) : List (String × List Nat) :=
  fs.map (fun f => (f.name, f.data))

/-- Every entry of the list is stored unencrypted. -/
def allPlain (fs : List FileEntry) : Bool := fs.all (fun f => !f.encrypted)

/-- `Download Selected as ZIP` handler (src/main.py:451-470): iterate the
record's files in order, keep those whose name is selected, decrypt when
flagged (a decryption failure propagates — this path has no try/except),
and write each entry. -/
def build_zip_selected (code : String) (info : ShareRecord) (selected : List String) :
    Except CryptoError (List (String × List Nat)) :=
  (info.files.filter (fun f => decide (f.name ∈ selected))).mapM
    (fun f => (download_file_data code info.salt f).map (fun d => (f.name, d)))

/-- `Download All as ZIP` handler (src/main.py:473-491): same, without the
selection filter. -/
def build_zip_all (code : String) (info : ShareRecord) :
    Except CryptoError (List (String × List Nat)) :=
  info.files.mapM
    (fun f => (download_file_data code info.salt f).map (fun d => (f.name, d)))

/-- Record with two entries sharing the name "x.txt" (payloads "1" and "2"). -/
def exDupRec : ShareRecord :=
  { salt := [0], created := 0, expires := 86400000000,
    files := [{ name := "x.txt", data := [49], size := 1, encrypted := false },
              { name := "x.txt", data := [50], size := 1, encrypted := false }] }

/-- C7 counterexample: building the archive from two entries that share the
name "x.txt" succeeds and contains both entries under that name — no
NameCollisionError exists anywhere in the source, and neither ZIP handler
checks names. -/
theorem zip_duplicate_names_counterexample :
    build_zip_selected "123456" exDupRec ["x.txt"]
      = Except.ok [("x.txt", [49]), ("x.txt", [50])] := rfl

theorem mapM_download_plain (code : String) (salt : List Nat) :
    ∀ fs : List FileEntry, allPlain fs = true →
      fs.mapM (fun f => (download_file_data code salt f).map (fun d => (f.name, d)))
        = Except.ok (zipPlain fs) := by
  intro fs h
  induction fs with
  | nil => rfl
  | cons f rest ih =>
      simp only [allPlain, List.all_cons, Bool.and_eq_true] at h
      have hf : f.encrypted = false := by
        cases henc : f.encrypted
        · rfl
        · rw [henc] at h; simp at h
      have hrest := ih (by simp only [allPlain]; exact h.2)
      rw [List.mapM_cons, hrest]
      simp only [download_file_data, hf, if_false, Except.map]
      rfl

/-- C7 amended: the ZIP builders write every file of the record in order with
no name validation: for a record of unencrypted entries the produced archive
entry sequence is exactly the record's (name, payload) list — even when two
entries share a name, both are written and no error is raised. -/
theorem zip_all_keeps_every_entry (code : String) (info : ShareRecord)
    (h : allPlain info.files = true) :
    build_zip_all code info = Except.ok (zipPlain info.files) :=
  mapM_download_plain code info.salt info.files h

/-- C7 amended witness: the duplicate-name record is archived whole, both
same-named entries included. -/
theorem zip_all_keeps_every_entry_witness :
    allPlain exDupRec.files = true ∧
    build_zip_all "123456" exDupRec = Except.ok (zipPlain exDupRec.files) :=
  ⟨by decide, zip_all_keeps_every_entry "123456" exDupRec (by decide)⟩

end SecureShare

